import Mathlib

/-!
Shallow embedding of the recording/transcription core of `src/main.py`
(push-to-talk dictation utility): the `auto_punctuate` post-processing
function, the `AudioRecorder` buffer, and the `VoicyController` state
machine, together with theorems settling the specification claims.

Python strings are modelled as `List Char`, audio samples as `ℚ`
(the concrete sample values in the spec are exactly representable),
and the sounddevice / Qt / model side effects as explicit state:
the recorder records which stream (if any) is open, the controller
records the list of `recording_changed` emissions, the list of audio
clips handed to transcription workers, and the list of `text_ready`
emissions.
-/

namespace TalkThrough

/-- The sentence-terminal punctuation test `ch in ".?!"` from `auto_punctuate`. -/
def terminalPunct (c : Char) : Bool :=
  c == Char.ofNat 46 || c == Char.ofNat 63 || c == Char.ofNat 33

/-- Python `str.strip()` on a list of characters: drop leading and trailing
whitespace. -/
def pyStrip (s : List Char) : List Char :=
  ((s.dropWhile Char.isWhitespace).reverse.dropWhile Char.isWhitespace).reverse

/-- `auto_punctuate` from `src/main.py` lines 64-75: strip, return early when
empty, capitalize the first character, then append a period unless the text
already ends in sentence-terminal punctuation (the code first checks whether
any terminal character occurs at all, and otherwise checks the last
character). -/
def auto_punctuate (text : List Char) : List Char :=
  match pyStrip text with
  | [] => []
  | c :: rest =>
    let t := Char.toUpper c :: rest
    if !(t.any terminalPunct) then
      t ++ [Char.ofNat 46]
    else
      if !(terminalPunct (t.getLastD (Char.ofNat 46))) then
        t ++ [Char.ofNat 46]
      else
        t

/-- `AudioRecorder` state (`src/main.py` lines 83-135).  `queue` is the FIFO
of frame blocks put by the stream callback (each block a list of rows, one
sample per channel); `stream` is `some id` while an input stream is open;
`nextStreamId` distinguishes distinct stream openings. -/
structure AudioRecorder where
  samplerate : ℕ
  channels : ℕ
  queue : List (List (List ℚ))
  stream : Option ℕ
  nextStreamId : ℕ
deriving DecidableEq

/-- A fresh recorder, as built by `AudioRecorder.__init__` (no stream, empty
queue). -/
def AudioRecorder.mk0 (samplerate channels : ℕ) : AudioRecorder :=
  ⟨samplerate, channels, [], none, 0⟩

/-- `AudioRecorder._callback`: append the incoming block to the FIFO. -/
def AudioRecorder.callback (r : AudioRecorder) (indata : List (List ℚ)) :
    AudioRecorder :=
  { r with queue := r.queue ++ [indata] }

/-- Enqueue a sequence of callback blocks in order. -/
def AudioRecorder.enqueueAll (r : AudioRecorder) (fs : List (List (List ℚ))) :
    AudioRecorder :=
  fs.foldl AudioRecorder.callback r

/-- `AudioRecorder.start` (`src/main.py` lines 96-110).  `ok` says whether
opening the input device succeeds; the second component of the result is
`false` when `sd.InputStream(...)` raised.  When a stream is already open the
call returns at once; otherwise stale queued frames are discarded first, and
only then is the stream opened (so on failure the queue is already
cleared). -/
def AudioRecorder.start (ok : Bool) (r : AudioRecorder) : AudioRecorder × Bool :=
  match r.stream with
  | some _ => (r, true)
  | none =>
    if ok then
      ({ r with queue := [], stream := some r.nextStreamId,
                nextStreamId := r.nextStreamId + 1 }, true)
    else
      ({ r with queue := [] }, false)

/-- `AudioRecorder.stop_and_get_audio` (`src/main.py` lines 112-135): when no
stream is active return `None` at once; otherwise close the stream, drain the
FIFO, return `None` when it was empty, else concatenate the blocks
(`np.concatenate(frames, axis=0)`), downmix by `np.mean(audio, axis=1)` when
`channels > 1` and take column 0 (`audio[:, 0]`) otherwise. -/
def AudioRecorder.stop_and_get_audio (r : AudioRecorder) :
    AudioRecorder × Option (List ℚ) :=
  match r.stream with
  | none => (r, none)
  | some _ =>
    let frames := r.queue
    let r' := { r with stream := none, queue := [] }
    if frames = [] then (r', none)
    else
      let audio := frames.flatten
      let mono :=
        if r.channels > 1 then
          audio.map (fun row => row.sum / (row.length : ℚ))
        else
          audio.map (fun row => row.headD 0)
      (r', some mono)

/-- Observable state of `VoicyController` (`src/main.py` lines 138-214)
together with the emission history: `events` is the ordered list of payloads
of `recording_changed` emissions, `submissions` the clips handed to
transcription worker threads, `texts` the payloads of `text_ready`
emissions. -/
structure Controller where
  recorder : AudioRecorder
  recording : Bool
  events : List Bool
  submissions : List (List ℚ)
  texts : List (List Char)
deriving DecidableEq

/-- A freshly constructed controller: not recording, nothing emitted. -/
def Controller.init : Controller :=
  ⟨AudioRecorder.mk0 16000 1, false, [], [], []⟩

/-- `VoicyController._set_recording`: store the flag and emit
`recording_changed` with the new value (unconditionally). -/
def Controller.set_recording (v : Bool) (c : Controller) : Controller :=
  { c with recording := v, events := c.events ++ [v] }

/-- `VoicyController._start_recording`: try to start the recorder; on success
set the flag (emitting); a raised exception is caught and logged, skipping
`_set_recording`. -/
def Controller.start_recording (ok : Bool) (c : Controller) : Controller :=
  let res := c.recorder.start ok
  let c' := { c with recorder := res.1 }
  if res.2 then c'.set_recording true else c'

/-- `VoicyController._stop_and_transcribe`: clear the flag (emitting), stop
the recorder, and when audio is present and non-empty hand it to a worker
thread. -/
def Controller.stop_and_transcribe (c : Controller) : Controller :=
  let c' := c.set_recording false
  let res := c'.recorder.stop_and_get_audio
  let c'' := { c' with recorder := res.1 }
  match res.2 with
  | none => c''
  | some a =>
    if a.length = 0 then c''
    else { c'' with submissions := c''.submissions ++ [a] }

/-- `VoicyController.hold_to_talk_down`: no-op while recording. -/
def Controller.hold_to_talk_down (ok : Bool) (c : Controller) : Controller :=
  if c.recording then c else c.start_recording ok

/-- `VoicyController.hold_to_talk_up`: no-op while idle. -/
def Controller.hold_to_talk_up (c : Controller) : Controller :=
  if !c.recording then c else c.stop_and_transcribe

/-- `VoicyController.toggle_recording`: flip according to the current
state. -/
def Controller.toggle_recording (ok : Bool) (c : Controller) : Controller :=
  if c.recording then c.stop_and_transcribe else c.start_recording ok

/-- `" ".join(text_parts)` over the model segments. -/
def joinSegments (segs : List (List Char)) : List Char :=
  List.intercalate [Char.ofNat 32] segs

/-- `VoicyController._transcribe_and_emit` (worker body, `src/main.py` lines
198-214): the model call either raises (`Except.error`) or returns a list of
segment texts; join them with single spaces and strip; publish nothing when
the result is empty; otherwise apply `auto_punctuate` when the `auto_punct`
option is on and emit `text_ready`.  Any exception is caught at the worker
boundary. -/
def Controller.transcribe_and_emit (res : Except Unit (List (List Char)))
    (autoPunct : Bool) (c : Controller) : Controller :=
  match res with
  | .error _ => c
  | .ok segs =>
    let text := pyStrip (joinSegments segs)
    if text = [] then c
    else
      let text' := if autoPunct then auto_punctuate text else text
      { c with texts := c.texts ++ [text'] }

/-- One externally triggered event: a hotkey / UI call into the controller
(with the success of a device open for the calls that may start a stream), or
the arrival of a callback frame block. -/
inductive Action where
  | holdDown (ok : Bool)
  | holdUp
  | toggle (ok : Bool)
  | frame (f : List (List ℚ))
deriving DecidableEq

/-- Execute one action on the controller. -/
def Controller.step (c : Controller) (a : Action) : Controller :=
  match a with
  | .holdDown ok => c.hold_to_talk_down ok
  | .holdUp => c.hold_to_talk_up
  | .toggle ok => c.toggle_recording ok
  | .frame f => { c with recorder := c.recorder.callback f }

/-- Execute a sequence of actions. -/
def Controller.run (c : Controller) (as : List Action) : Controller :=
  as.foldl Controller.step c

/-- The expected `recording_changed` payloads along a run: one emission, with
the new state, per step that actually changes the recording flag; nothing for
a step that leaves it unchanged. -/
def transitionLog (c : Controller) : List Action → List Bool
  | [] => []
  | a :: as =>
    (if (c.step a).recording = c.recording then [] else [(c.step a).recording])
      ++ transitionLog (c.step a) as

/-! ### Character-level helper lemmas -/

/-- Characters are determined by their code points. -/
theorem char_eq_iff_toNat (c d : Char) : c = d ↔ c.toNat = d.toNat := by
  constructor
  · intro h
    rw [h]
  · intro h
    have h2 := congrArg Char.ofNat h
    rwa [Char.ofNat_toNat, Char.ofNat_toNat] at h2

/-- Code point of `Char.ofNat` below the surrogate range. -/
theorem toNat_ofNat_lt {n : ℕ} (h : n < 55296) : (Char.ofNat n).toNat = n := by
  rw [Char.ofNat, dif_pos (Or.inl h : Nat.isValidChar n)]
  rfl

/-- The code point of `Char.toUpper`: lowercase basic latin letters move down
by 32, everything else is unchanged. -/
theorem toUpper_toNat (c : Char) :
    (Char.toUpper c).toNat =
      if 97 ≤ c.toNat ∧ c.toNat ≤ 122 then c.toNat - 32 else c.toNat := by
  rw [Char.toUpper]
  split
  · rename_i h
    exact toNat_ofNat_lt (by omega)
  · rfl

/-- Whitespace characters all sit below code point 33. -/
theorem isWhitespace_toNat_lt (c : Char) (h : c.isWhitespace = true) :
    c.toNat < 33 := by
  simp only [Char.isWhitespace, Bool.or_eq_true, decide_eq_true_eq] at h
  rcases h with ((h | h) | h) | h <;> subst h <;> decide

/-- Uppercasing never turns a non-whitespace character into whitespace. -/
theorem toUpper_isWhitespace (c : Char) (h : c.isWhitespace = false) :
    (Char.toUpper c).isWhitespace = false := by
  by_cases hc : 97 ≤ c.toNat ∧ c.toNat ≤ 122
  · by_contra hws
    rw [Bool.not_eq_false] at hws
    have h1 := isWhitespace_toNat_lt _ hws
    rw [toUpper_toNat, if_pos hc] at h1
    omega
  · have he : Char.toUpper c = c := by
      rw [char_eq_iff_toNat, toUpper_toNat, if_neg hc]
    rw [he, h]

/-- `Char.toUpper` is idempotent. -/
theorem toUpper_toUpper (c : Char) :
    Char.toUpper (Char.toUpper c) = Char.toUpper c := by
  rw [char_eq_iff_toNat, toUpper_toNat, toUpper_toNat]
  split_ifs <;> omega

/-- Sentence-terminal punctuation is never whitespace. -/
theorem terminalPunct_not_ws (c : Char) (h : terminalPunct c = true) :
    c.isWhitespace = false := by
  simp only [terminalPunct, Bool.or_eq_true, beq_iff_eq] at h
  rcases h with (h | h) | h <;> subst h <;> decide

/-! ### List-level helper lemmas about `pyStrip` -/

/-- Dropping a satisfied prefix does not change the last element when the
result is non-empty. -/
theorem getLast?_dropWhile_of_ne_nil (p : Char → Bool) (l : List Char)
    (h : l.dropWhile p ≠ []) : (l.dropWhile p).getLast? = l.getLast? := by
  induction l with
  | nil => simp [List.dropWhile] at h
  | cons a t ih =>
    rw [List.dropWhile_cons] at h ⊢
    by_cases hp : p a
    · rw [if_pos hp] at h ⊢
      rw [ih h]
      cases t with
      | nil => simp [List.dropWhile] at h
      | cons b t2 => rw [List.getLast?_cons_cons]
    · rw [if_neg hp]

/-- The first character of a stripped string is not whitespace. -/
theorem pyStrip_head_not_ws (s : List Char) (c : Char)
    (h : (pyStrip s).head? = some c) : c.isWhitespace = false := by
  unfold pyStrip at h
  rw [List.head?_reverse] at h
  have hne : (s.dropWhile Char.isWhitespace).reverse.dropWhile Char.isWhitespace ≠ [] := by
    intro h0
    rw [h0] at h
    exact Option.noConfusion h
  rw [getLast?_dropWhile_of_ne_nil _ _ hne, List.getLast?_reverse] at h
  have h2 := List.head?_dropWhile_not Char.isWhitespace s
  rw [h] at h2
  exact h2

/-- The last character of a stripped string is not whitespace. -/
theorem pyStrip_getLast_not_ws (s : List Char) (c : Char)
    (h : (pyStrip s).getLast? = some c) : c.isWhitespace = false := by
  unfold pyStrip at h
  rw [List.getLast?_reverse] at h
  have h2 := List.head?_dropWhile_not Char.isWhitespace
    (s.dropWhile Char.isWhitespace).reverse
  rw [h] at h2
  exact h2

/-- Stripping is the identity on a string with non-whitespace first and last
characters. -/
theorem pyStrip_eq_self (l : List Char)
    (h1 : ∀ c, l.head? = some c → c.isWhitespace = false)
    (h2 : ∀ c, l.getLast? = some c → c.isWhitespace = false) :
    pyStrip l = l := by
  unfold pyStrip
  have e1 : l.dropWhile Char.isWhitespace = l := by
    cases l with
    | nil => rfl
    | cons a t =>
      rw [List.dropWhile_cons, if_neg]
      simp [h1 a rfl]
  rw [e1]
  have e2 : l.reverse.dropWhile Char.isWhitespace = l.reverse := by
    cases hr : l.reverse with
    | nil => rfl
    | cons b t =>
      rw [List.dropWhile_cons, if_neg]
      have hb : l.getLast? = some b := by
        rw [← List.head?_reverse, hr]
        rfl
      simp [h2 b hb]
  rw [e2, List.reverse_reverse]

/-- `getLast?` of a non-empty list in terms of `getLastD`. -/
theorem getLast?_cons_getLastD (a d : Char) (l : List Char) :
    (a :: l).getLast? = some ((a :: l).getLastD d) := by
  rw [List.getLastD_eq_getLast?]
  cases hl : (a :: l).getLast? with
  | none => simp at hl
  | some x => rfl

/-! ### Structure of `auto_punctuate` -/

/-- On input that strips empty, `auto_punctuate` returns empty. -/
theorem auto_punctuate_strip_nil (s : List Char) (h : pyStrip s = []) :
    auto_punctuate s = [] := by
  unfold auto_punctuate
  rw [h]

/-- Closed form of `auto_punctuate` on input that strips to `c :: rest`: the
first character is uppercased, the rest kept, and a period is appended
exactly when the last character is not sentence-terminal (the code's
redundant "any terminal character at all" pre-check collapses to this). -/
theorem auto_punctuate_strip_cons (s : List Char) (c : Char) (rest : List Char)
    (h : pyStrip s = c :: rest) :
    auto_punctuate s =
      (Char.toUpper c :: rest) ++
        (if terminalPunct ((Char.toUpper c :: rest).getLastD (Char.ofNat 46)) = true
         then [] else [Char.ofNat 46]) := by
  unfold auto_punctuate
  rw [h]
  dsimp only
  by_cases hany : (Char.toUpper c :: rest).any terminalPunct = true
  · rw [if_neg (by rw [hany]; decide)]
    by_cases hlast : terminalPunct ((Char.toUpper c :: rest).getLastD (Char.ofNat 46)) = true
    · rw [if_neg (by rw [hlast]; decide), if_pos hlast, List.append_nil]
    · rw [Bool.not_eq_true] at hlast
      rw [if_pos (by rw [hlast]; decide), if_neg (by rw [hlast]; decide)]
  · rw [Bool.not_eq_true] at hany
    have hlast : terminalPunct ((Char.toUpper c :: rest).getLastD (Char.ofNat 46)) = false := by
      have hmem : (Char.toUpper c :: rest).getLastD (Char.ofNat 46) ∈ Char.toUpper c :: rest := by
        rw [List.getLastD_cons]
        exact List.getLastD_mem_cons _ _
      rw [List.any_eq_false] at hany
      have h3 := hany _ hmem
      rw [Bool.not_eq_true] at h3
      exact h3
    rw [if_pos (by rw [hany]; decide), if_neg (by rw [hlast]; decide)]

/-- The output of `auto_punctuate` is a fixed point of `pyStrip` and of
`auto_punctuate` itself. -/
theorem auto_punctuate_idem (s : List Char) :
    auto_punctuate (auto_punctuate s) = auto_punctuate s := by
  cases h : pyStrip s with
  | nil =>
    rw [auto_punctuate_strip_nil s h]
    exact auto_punctuate_strip_nil [] rfl
  | cons c rest =>
    have e := auto_punctuate_strip_cons s c rest h
    have hcws : c.isWhitespace = false :=
      pyStrip_head_not_ws s c (by rw [h]; rfl)
    have hu : (Char.toUpper c).isWhitespace = false := toUpper_isWhitespace c hcws
    by_cases hterm :
        terminalPunct ((Char.toUpper c :: rest).getLastD (Char.ofNat 46)) = true
    · rw [e, if_pos hterm, List.append_nil]
      have hstrip : pyStrip (Char.toUpper c :: rest) = Char.toUpper c :: rest := by
        refine pyStrip_eq_self _ (fun d hd => ?_) (fun d hd => ?_)
        · rw [List.head?_cons] at hd
          injection hd with hd
          rw [← hd]
          exact hu
        · rw [getLast?_cons_getLastD (Char.toUpper c) (Char.ofNat 46) rest] at hd
          injection hd with hd
          rw [← hd]
          exact terminalPunct_not_ws _ hterm
      rw [auto_punctuate_strip_cons _ (Char.toUpper c) rest hstrip,
        toUpper_toUpper, if_pos hterm, List.append_nil]
    · rw [Bool.not_eq_true] at hterm
      rw [e, if_neg (by rw [hterm]; decide)]
      have hlast2 :
          ((Char.toUpper c :: rest) ++ [Char.ofNat 46]).getLast? = some (Char.ofNat 46) :=
        List.getLast?_concat _
      have hstrip : pyStrip ((Char.toUpper c :: rest) ++ [Char.ofNat 46]) =
          (Char.toUpper c :: rest) ++ [Char.ofNat 46] := by
        refine pyStrip_eq_self _ (fun d hd => ?_) (fun d hd => ?_)
        · rw [List.cons_append, List.head?_cons] at hd
          injection hd with hd
          rw [← hd]
          exact hu
        · rw [hlast2] at hd
          injection hd with hd
          rw [← hd]
          exact terminalPunct_not_ws _ (by decide)
      have hstrip' : pyStrip ((Char.toUpper c :: rest) ++ [Char.ofNat 46]) =
          Char.toUpper c :: (rest ++ [Char.ofNat 46]) := by
        rw [hstrip, List.cons_append]
      rw [auto_punctuate_strip_cons _ (Char.toUpper c) (rest ++ [Char.ofNat 46]) hstrip',
        toUpper_toUpper]
      have hlastD :
          (Char.toUpper c :: (rest ++ [Char.ofNat 46])).getLastD (Char.ofNat 46) =
            Char.ofNat 46 := by
        rw [← List.cons_append, List.getLastD_concat]
      rw [if_pos (by rw [hlastD]; decide), List.append_nil, List.cons_append]

/-! ### Recorder and controller helper lemmas -/

/-- `start` on a recorder with an open stream is the identity and succeeds. -/
theorem start_of_isSome (r : AudioRecorder) (ok : Bool) (h : r.stream.isSome) :
    r.start ok = (r, true) := by
  unfold AudioRecorder.start
  cases hs : r.stream with
  | none => rw [hs] at h; exact Bool.noConfusion h
  | some i => rfl

/-- Enqueueing frame blocks appends them to the FIFO in order. -/
theorem enqueueAll_queue (fs : List (List (List ℚ))) (r : AudioRecorder) :
    (r.enqueueAll fs).queue = r.queue ++ fs := by
  induction fs generalizing r with
  | nil => simp [AudioRecorder.enqueueAll]
  | cons f fs ih =>
    show ((r.callback f).enqueueAll fs).queue = _
    rw [ih]
    simp [AudioRecorder.callback]

/-- Enqueueing frame blocks does not touch the stream. -/
theorem enqueueAll_stream (fs : List (List (List ℚ))) (r : AudioRecorder) :
    (r.enqueueAll fs).stream = r.stream := by
  induction fs generalizing r with
  | nil => rfl
  | cons f fs ih =>
    show ((r.callback f).enqueueAll fs).stream = _
    rw [ih]
    rfl

/-- `_start_recording` either transitions to Recording with one emission, or
(on an exception or with a stream already open but the flag still set) leaves
the flag and the emission history untouched. -/
theorem start_recording_cases (c : Controller) (ok : Bool) :
    ((c.start_recording ok).recording = true ∧
      (c.start_recording ok).events = c.events ++ [true]) ∨
    ((c.start_recording ok).recording = c.recording ∧
      (c.start_recording ok).events = c.events) := by
  unfold Controller.start_recording
  dsimp only
  by_cases hres : (AudioRecorder.start ok c.recorder).2 = true
  · left
    rw [if_pos hres]
    exact ⟨rfl, rfl⟩
  · right
    rw [if_neg hres]
    exact ⟨rfl, rfl⟩

/-- `_stop_and_transcribe` always clears the flag and emits exactly one
`recording_changed false`, whatever the recorder returns. -/
theorem stop_and_transcribe_flag (c : Controller) :
    (c.stop_and_transcribe).recording = false ∧
    (c.stop_and_transcribe).events = c.events ++ [false] := by
  unfold Controller.stop_and_transcribe
  dsimp only
  split
  · exact ⟨rfl, rfl⟩
  · split
    · exact ⟨rfl, rfl⟩
    · exact ⟨rfl, rfl⟩

/-- Per-step emission discipline: a step extends the emission history by the
new state when the flag flips and by nothing otherwise. -/
theorem step_events (c : Controller) (a : Action) :
    (c.step a).events =
      c.events ++
        (if (c.step a).recording = c.recording then [] else [(c.step a).recording]) := by
  cases a with
  | holdDown ok =>
    simp only [Controller.step]
    unfold Controller.hold_to_talk_down
    by_cases h : c.recording = true
    · rw [if_pos h, if_pos rfl, List.append_nil]
    · rw [Bool.not_eq_true] at h
      rw [if_neg (by rw [h]; decide)]
      rcases start_recording_cases c ok with ⟨h1, h2⟩ | ⟨h1, h2⟩
      · rw [h1, h2, h, if_neg (by decide)]
      · rw [h1, h2, if_pos rfl, List.append_nil]
  | holdUp =>
    simp only [Controller.step]
    unfold Controller.hold_to_talk_up
    by_cases h : c.recording = true
    · rw [if_neg (by rw [h]; decide)]
      rcases stop_and_transcribe_flag c with ⟨h1, h2⟩
      rw [h1, h2, h, if_neg (by decide)]
    · rw [Bool.not_eq_true] at h
      rw [if_pos (by rw [h]; decide)]
      rw [if_pos rfl, List.append_nil]
  | toggle ok =>
    simp only [Controller.step]
    unfold Controller.toggle_recording
    by_cases h : c.recording = true
    · rw [if_pos h]
      rcases stop_and_transcribe_flag c with ⟨h1, h2⟩
      rw [h1, h2, h, if_neg (by decide)]
    · rw [Bool.not_eq_true] at h
      rw [if_neg (by rw [h]; decide)]
      rcases start_recording_cases c ok with ⟨h1, h2⟩ | ⟨h1, h2⟩
      · rw [h1, h2, h, if_neg (by decide)]
      · rw [h1, h2, if_pos rfl, List.append_nil]
  | frame f =>
    simp [Controller.step]

/-- Run-level emission discipline: the emissions along a run are exactly the
per-transition log. -/
theorem run_events (c : Controller) (as : List Action) :
    (c.run as).events = c.events ++ transitionLog c as := by
  induction as generalizing c with
  | nil => simp [Controller.run, transitionLog]
  | cons a as ih =>
    show (Controller.run (c.step a) as).events = _
    rw [ih, step_events c a]
    rw [show transitionLog c (a :: as) =
      (if (c.step a).recording = c.recording then [] else [(c.step a).recording])
        ++ transitionLog (c.step a) as from rfl]
    rw [List.append_assoc]

/-! ### Claim theorems -/

/-- Claim C1: over every finite sequence of `hold_to_talk_down`,
`hold_to_talk_up` and `toggle_recording` calls executed sequentially (with
callback frames allowed in between), the `recording_changed` notification is
emitted exactly once per actual Idle-to-Recording or Recording-to-Idle
transition, with the new boolean state as payload, and never when a call
finds the machine already in the state it would move to. -/
theorem c1_recording_changed_per_transition (as : List Action) :
    (Controller.init.run as).events = transitionLog Controller.init as := by
  have h := run_events Controller.init as
  rwa [show Controller.init.events = [] from rfl, List.nil_append] at h

/-- Claim C2: when opening the input stream raises, `_start_recording`
leaves the recording flag `False`, emits no `recording_changed`
notification, and leaves no stream active. -/
theorem c2_start_failure_stays_idle (c : Controller) (h1 : c.recording = false)
    (h2 : c.recorder.stream = none) :
    (c.start_recording false).recording = false ∧
    (c.start_recording false).events = c.events ∧
    (c.start_recording false).recorder.stream = none := by
  refine ⟨?_, ?_, ?_⟩ <;>
    simp [Controller.start_recording, Controller.set_recording,
      AudioRecorder.start, h1, h2]

/-- Witness for claim C2 at a freshly constructed controller. -/
theorem c2_witness :
    (Controller.init.start_recording false).recording = false ∧
    (Controller.init.start_recording false).events = Controller.init.events ∧
    (Controller.init.start_recording false).recorder.stream = none :=
  c2_start_failure_stays_idle Controller.init rfl rfl

/-- Claim C3: `stop_and_get_audio` with no active stream returns `None`
and leaves the recorder untouched (and, being total, never raises). -/
theorem c3_stop_without_stream (r : AudioRecorder) (h : r.stream = none) :
    r.stop_and_get_audio = (r, none) := by
  unfold AudioRecorder.stop_and_get_audio
  rw [h]

/-- Witness for claim C3 at a freshly constructed recorder. -/
theorem c3_witness :
    (AudioRecorder.mk0 16000 1).stop_and_get_audio = (AudioRecorder.mk0 16000 1, none) :=
  c3_stop_without_stream (AudioRecorder.mk0 16000 1) rfl

/-- Claim C4: a session that starts (successfully) and stops with zero
frames enqueued yields `None` from `stop_and_get_audio`, and the
controller's stop path then submits nothing to transcription. -/
theorem c4_empty_session_no_submission (c : Controller)
    (h : c.recorder.stream = none) :
    ((c.start_recording true).recorder.stop_and_get_audio).2 = none ∧
    ((c.start_recording true).stop_and_transcribe).submissions =
      (c.start_recording true).submissions := by
  constructor <;>
    simp [Controller.start_recording, Controller.set_recording,
      Controller.stop_and_transcribe, AudioRecorder.start,
      AudioRecorder.stop_and_get_audio, h]

/-- Witness for claim C4 at a freshly constructed controller. -/
theorem c4_witness :
    ((Controller.init.start_recording true).recorder.stop_and_get_audio).2 = none ∧
    ((Controller.init.start_recording true).stop_and_transcribe).submissions =
      (Controller.init.start_recording true).submissions :=
  c4_empty_session_no_submission Controller.init rfl

/-- Claim C5: on any input whose stripped form is non-empty,
`auto_punctuate` uppercases the first character, keeps every interior
character unchanged, and appends a period exactly when the result does not
already end in one of `.`, `?`, `!`. -/
theorem c5_auto_punctuate_shape (s : List Char) (c : Char) (rest : List Char)
    (h : pyStrip s = c :: rest) :
    auto_punctuate s =
      (Char.toUpper c :: rest) ++
        (if terminalPunct ((Char.toUpper c :: rest).getLastD (Char.ofNat 46)) = true
         then [] else [Char.ofNat 46]) :=
  auto_punctuate_strip_cons s c rest h

/-- Witness for claim C5 on the input "hi". -/
theorem c5_witness :
    auto_punctuate ("hi".toList) =
      (Char.toUpper 'h' :: ['i']) ++
        (if terminalPunct ((Char.toUpper 'h' :: ['i']).getLastD (Char.ofNat 46)) = true
         then [] else [Char.ofNat 46]) :=
  c5_auto_punctuate_shape ("hi".toList) 'h' ['i'] (by decide)

/-- Counterexample to claim C6 as stated: `auto_punctuate` does not leave
"already punctuated!" unchanged, because it uppercases the first
character. -/
theorem c6_counterexample :
    ¬ (auto_punctuate ("already punctuated!".toList) =
        "already punctuated!".toList) := by
  decide

/-- Claim C6 (amended): "hello there" becomes "Hello there.", and
"already punctuated!" becomes "Already punctuated!" (first character
capitalized; no period appended since it already ends in `!`). -/
theorem c6_worked_examples :
    auto_punctuate ("hello there".toList) = "Hello there.".toList ∧
    auto_punctuate ("already punctuated!".toList) =
      "Already punctuated!".toList := by
  constructor
  · decide
  · decide

/-- Claim C7: with more than one channel, `stop_and_get_audio` downmixes by
averaging across channels: a 2-channel clip whose single frame holds one row
`[a, b]` comes back as `[(a + b) / 2]`; in particular `[[1, 3]]` yields
`[2]`. -/
theorem c7_downmix_mean :
    ((AudioRecorder.stop_and_get_audio ⟨16000, 2, [[[(1 : ℚ), 3]]], some 0, 1⟩).2 =
      some [2]) ∧
    ∀ (a b : ℚ) (sr sid : ℕ),
      (AudioRecorder.stop_and_get_audio ⟨sr, 2, [[[a, b]]], some sid, 0⟩).2 =
        some [(a + b) / 2] := by
  constructor
  · norm_num [AudioRecorder.stop_and_get_audio]
  · intro a b sr sid
    norm_num [AudioRecorder.stop_and_get_audio]

/-- Claim C8: `start` is idempotent — starting from the inactive state first
discards stale frames; a second `start` without an intervening stop (after
any frames have arrived) is a successful no-op that keeps the open stream
and the frames enqueued since the first call. -/
theorem c8_start_idempotent (r : AudioRecorder) (ok : Bool)
    (fs : List (List (List ℚ))) (h : r.stream = none) :
    ((r.start true).1.queue = []) ∧
    (((r.start true).1.enqueueAll fs).start ok =
      ((r.start true).1.enqueueAll fs, true)) ∧
    (((r.start true).1.enqueueAll fs).queue = fs) := by
  have hs : AudioRecorder.start true r = ({ r with queue := [], stream := some r.nextStreamId, nextStreamId := r.nextStreamId + 1 }, true) := by
    unfold AudioRecorder.start
    rw [h]
    rfl
  refine ⟨by rw [hs], ?_, ?_⟩
  · apply start_of_isSome
    rw [enqueueAll_stream, hs]
    rfl
  · rw [enqueueAll_queue, hs]
    rfl

/-- Witness for claim C8 at a freshly constructed recorder with one frame
block arriving between the two `start` calls. -/
theorem c8_witness :
    (((AudioRecorder.mk0 16000 1).start true).1.queue = []) ∧
    ((((AudioRecorder.mk0 16000 1).start true).1.enqueueAll [[[(1 : ℚ)]]]).start false =
      (((AudioRecorder.mk0 16000 1).start true).1.enqueueAll [[[(1 : ℚ)]]], true)) ∧
    ((((AudioRecorder.mk0 16000 1).start true).1.enqueueAll [[[(1 : ℚ)]]]).queue =
      [[[(1 : ℚ)]]]) :=
  c8_start_idempotent (AudioRecorder.mk0 16000 1) false [[[(1 : ℚ)]]] rfl

/-- Claim C9: a worker whose model call raises, or whose joined and trimmed
segments are empty, publishes no text and leaves the state machine fields
untouched; moreover the stop path has already cleared the recording flag
before any worker is spawned. -/
theorem c9_worker_silent (c : Controller) (res : Except Unit (List (List Char)))
    (ap : Bool)
    (h : res = Except.error () ∨
      ∃ segs, res = Except.ok segs ∧ pyStrip (joinSegments segs) = []) :
    (Controller.transcribe_and_emit res ap c).texts = c.texts ∧
    (Controller.transcribe_and_emit res ap c).recording = c.recording ∧
    (Controller.transcribe_and_emit res ap c).events = c.events ∧
    (c.stop_and_transcribe).recording = false := by
  have key : Controller.transcribe_and_emit res ap c = c := by
    rcases h with h | ⟨segs, hres, hempty⟩
    · subst h
      rfl
    · subst hres
      unfold Controller.transcribe_and_emit
      dsimp only
      rw [if_pos hempty]
  exact ⟨by rw [key], by rw [key], by rw [key], (stop_and_transcribe_flag c).1⟩

/-- Witness for claim C9: a raising model call on a fresh controller. -/
theorem c9_witness :
    (Controller.transcribe_and_emit (Except.error ()) true Controller.init).texts =
      Controller.init.texts ∧
    (Controller.transcribe_and_emit (Except.error ()) true Controller.init).recording =
      Controller.init.recording ∧
    (Controller.transcribe_and_emit (Except.error ()) true Controller.init).events =
      Controller.init.events ∧
    (Controller.init.stop_and_transcribe).recording = false :=
  c9_worker_silent Controller.init (Except.error ()) true (Or.inl rfl)

/-- Claim C10: `auto_punctuate` is total and idempotent: it maps inputs that
strip to nothing (empty or whitespace-only) to the empty result, and
applying it twice equals applying it once. -/
theorem c10_idempotent_total (s : List Char) :
    auto_punctuate (auto_punctuate s) = auto_punctuate s ∧
    (pyStrip s = [] → auto_punctuate s = []) :=
  ⟨auto_punctuate_idem s, auto_punctuate_strip_nil s⟩

/-- Witness for claim C10 on "hello" and on a whitespace-only input. -/
theorem c10_witness :
    (auto_punctuate (auto_punctuate ("hello".toList)) =
      auto_punctuate ("hello".toList)) ∧
    auto_punctuate ("  ".toList) = [] :=
  ⟨(c10_idempotent_total ("hello".toList)).1,
    (c10_idempotent_total ("  ".toList)).2 (by decide)⟩

end TalkThrough
